import Mathlib

/-!
Verification of the resumable paginated extraction engine in `src/scraper.py`.

The Python source is shallowly embedded below:

* string manipulation (`str.strip`, `str.split(' - ')`, `str.replace(old, '', 1)`,
  slicing `[:-1]`, `str.lower`) is modelled over `List Char`;
* Python dicts of `str → str` are insertion-ordered association lists;
* `parse_html` (lines 19-66) is modelled per article; `article.find(...)`
  returning `None` followed by `.get_text` is an `AttributeError`, modelled
  with `Except`;
* `csv.DictWriter` (stdlib, default `extrasaction='raise'`, `restval=None`
  rendered as an empty cell) is modelled by `dictWriterRow` / `writeRowsAux`;
* `fetch_and_write_data` (lines 68-129) is modelled as a trace-producing
  function over an `Oracle` that supplies the filesystem state read at
  startup (checkpoint file, CSV file existence), the navigation outcomes
  (whether the `Next` click from a given page succeeds), and the articles
  rendered on each page.  The unbounded `while True` loop takes explicit
  fuel; running out of fuel is the artificial outcome `Outcome.truncated`.
-/

set_option maxRecDepth 4000

namespace Scraper

/-! ## Python string primitives -/

/-- Strip characters satisfying `p` from both ends of a string
(the common core of Python `str.strip()` and `str.strip("()")`). -/
def stripWith (p : Char → Bool) (s : String) : String :=
  ⟨((s.data.dropWhile p).reverse.dropWhile p).reverse⟩

/-- Python `.strip()` (lines 36, 42, 53): strip whitespace from both ends. -/
def pyStrip (s : String) : String := stripWith Char.isWhitespace s

/-- Python `.strip("()")` (lines 43, 54): strip any leading and trailing
parenthesis characters. -/
def pyStripParens (s : String) : String :=
  stripWith (fun c => c == '(' || c == ')') s

/-- Python `span.text[:-1]` (line 35): drop the final character. -/
def pyDropLast (s : String) : String := ⟨s.data.dropLast⟩

/-- Python `key.lower().replace(' ', '_')` (line 61). -/
def keyNormalize (s : String) : String :=
  ⟨(s.data.map Char.toLower).map (fun c => if c == ' ' then '_' else c)⟩

/-- Drop the first (leftmost) occurrence of the pattern `pat` from a list. -/
def dropFirstOcc (pat : List Char) : List Char → List Char
  | [] => []
  | c :: rest =>
    if pat.isPrefixOf (c :: rest) then (c :: rest).drop pat.length
    else c :: dropFirstOcc pat rest

/-- Python `s.replace(old, '', 1)` (line 36).  With `old = ""` Python inserts
the empty string once, leaving `s` unchanged. -/
def pyReplaceFirstByEmpty (old s : String) : String :=
  if old.data.isEmpty then s else ⟨dropFirstOcc old.data s.data⟩

/-- Python `value.split(' - ')` (lines 40, 51): split on each non-overlapping
occurrence of the three-character separator, scanning left to right.  The
first list is the reversed accumulator of the current segment. -/
def splitDashAux : List Char → List Char → List (List Char)
  | acc, ' ' :: '-' :: ' ' :: rest => acc.reverse :: splitDashAux [] rest
  | acc, c :: rest => splitDashAux (c :: acc) rest
  | acc, [] => [acc.reverse]

/-- Python `value.split(' - ')` on strings. -/
def pySplitDash (s : String) : List String :=
  (splitDashAux [] s.data).map (fun l => ⟨l⟩)

/-! ## Python dicts -/

/-- A Python `dict[str, str]` as an insertion-ordered association list. -/
abbrev Rec := List (String × String)

/-- Python `d[k] = v`: overwrite in place when the key is present,
otherwise append at the end (dicts preserve insertion order). -/
def dictSet (d : Rec) (k v : String) : Rec :=
  if d.any (fun kv => kv.1 == k) then
    d.map (fun kv => if kv.1 == k then (k, v) else kv)
  else d ++ [(k, v)]

/-- Python `d.get(k)`. -/
def dictGet (d : Rec) (k : String) : Option String :=
  (d.find? (fun kv => kv.1 == k)).map (fun kv => kv.2)

/-! ## The rendered page, as seen by `parse_html` (lines 19-66)

`parse_html` only consumes the page through the structured-markup collaborator
(BeautifulSoup): per `article.ng-star-inserted` it reads the text of the first
`p.ecl-u-type-bold` (if such an element exists), and per
`p.ecl-u-type-paragraph-m` the text of its bold `span` (if present) together
with the paragraph's own text.  A page is therefore embedded as the list of
those query results. -/

/-- One `p.ecl-u-type-paragraph-m` element of an article: `spanText` is
`span.text` of its `span.ecl-u-type-bold` when that query finds one, and
`fullText` is `paragraph.get_text(strip=True)`. -/
structure Paragraph where
  spanText : Option String
  fullText : String
deriving DecidableEq

/-- One `article.ng-star-inserted` block: `permitPara` is the text of the
first `p.ecl-u-type-bold` when that query finds one (`none` models
`find` returning `None`), and `paragraphs` lists the
`p.ecl-u-type-paragraph-m` query results in document order. -/
structure Article where
  permitPara : Option String
  paragraphs : List Paragraph
deriving DecidableEq

/-- The diagnostics printed on lines 47 and 58. -/
inductive Diag
  | carrierFormat (page : Nat) (value : String)
  | airportFormat (page : Nat) (value : String)
deriving DecidableEq

/-- Lines 32-61: process one labeled paragraph, threading the record being
built and the diagnostics printed so far. -/
def processParagraph (page : Nat) (acc : Rec × List Diag) : Paragraph → Rec × List Diag
  | ⟨none, _⟩ => acc
  | ⟨some st, fullText⟩ =>
    let key := pyDropLast st
    let value := pyStrip (pyReplaceFirstByEmpty st fullText)
    if key == "Air carrier Name (Code)" then
      let parts := pySplitDash value
      match parts.reverse with
      | codePart :: namePart :: _ =>
        (dictSet (dictSet acc.1 "air_carrier_name" (pyStrip namePart))
          "air_carrier_code" (pyStripParens codePart), acc.2)
      | _ => (acc.1, acc.2 ++ [Diag.carrierFormat page value])
    else if key == "Airport Name (Code)" then
      let parts := pySplitDash value
      match parts.reverse with
      | codePart :: _ :: _ =>
        (dictSet
          (dictSet acc.1 "airport_name"
            (pyStrip (String.intercalate " - " parts.dropLast)))
          "airport_code" (pyStripParens codePart), acc.2)
      | _ => (acc.1, acc.2 ++ [Diag.airportFormat page value])
    else (dictSet acc.1 (keyNormalize key) value, acc.2)

/-- Lines 25-64 for a single article.  Line 27 calls `.get_text` directly on
the result of `article.find('p', class_='ecl-u-type-bold')`; when that query
finds no element, Python raises `AttributeError`, modelled as `Except.error`.
Otherwise the block's record and diagnostics are produced. -/
def processArticle (page : Nat) : Article → Except String (Rec × List Diag)
  | ⟨none, _⟩ => Except.error "AttributeError: NoneType has no attribute get_text"
  | ⟨some pid, paragraphs⟩ =>
    let d0 : Rec := if pid == "" then [] else dictSet [] "permit_id" pid
    Except.ok (paragraphs.foldl (processParagraph page) (d0, []))

/-- `parse_html` (lines 19-66): records of the non-empty blocks, in order,
together with the diagnostics printed along the way.  An exception inside a
block aborts the whole call. -/
def parse_html (page : Nat) : List Article → Except String (List Rec × List Diag)
  | [] => Except.ok ([], [])
  | a :: rest => do
    let (d, ds) ← processArticle page a
    let (l, ds') ← parse_html page rest
    Except.ok ((if d.isEmpty then l else d :: l), ds ++ ds')

/-! ## The CSV writer (lines 100-109) -/

/-- `csv_columns` (line 100). -/
def csv_columns : List String :=
  ["permit_id", "member_state", "air_carrier_name", "air_carrier_code",
   "airport_name", "airport_code", "airport_country"]

/-- One row of `csv.DictWriter` with the default `extrasaction='raise'`:
a key outside `cols` raises `ValueError`; keys absent from the record render
as the default `restval`, an empty cell. -/
def dictWriterRow (cols : List String) (r : Rec) : Except String (List String) :=
  if r.any (fun kv => !(cols.contains kv.1)) then
    Except.error "ValueError: dict contains fields not in fieldnames"
  else
    Except.ok (cols.map (fun c => (dictGet r c).getD ""))

/-- `writer.writerows(page_data)` (line 109): rows are written one by one;
the call returns the rows written before the first failing row and whether
every row was written (`false` models the `ValueError` escaping). -/
def writeRowsAux (cols : List String) : List Rec → List (List String) × Bool
  | [] => ([], true)
  | r :: rs =>
    match dictWriterRow cols r with
    | Except.error _ => ([], false)
    | Except.ok row =>
      let rest := writeRowsAux cols rs
      (row :: rest.1, rest.2)

/-! ## The orchestrator `fetch_and_write_data` (lines 68-129) -/

/-- Observable side effects of a run, in order of occurrence. -/
inductive Ev
  | writeHeader
  | append (page : Nat) (rows : List (List String))
  | ckptWrite (n : Nat)
  | skipAdv (page : Nat)
  | steadyAdv (page : Nat)
deriving DecidableEq

/-- How a run ends.  `skipFailed` is the `return` on line 95; `finished` is
the `break` on line 126 (end of listing); `exnParse`/`exnWrite` are uncaught
exceptions from `parse_html`/`writerows`; `truncated` is the model running
out of fuel inside `while True`. -/
inductive Outcome
  | skipFailed
  | finished
  | exnParse
  | exnWrite
  | truncated
deriving DecidableEq

/-- The environment of one run: the filesystem state read at startup, the
outcome of clicking `Next` from each page, and the articles each page
renders. `fileNonEmpty` records whether a pre-existing CSV file had content;
the code never consults it (line 98 checks only `os.path.isfile`), it exists
solely to state spec-level claims about empty files. -/
structure Oracle where
  ckptExists : Bool
  ckptVal : Nat
  fileExists : Bool
  fileNonEmpty : Bool
  navOk : Nat → Bool
  pages : Nat → List Article

/-- Lines 73-76: `start_page` is the checkpoint file's integer when the file
exists, else 1. -/
def startPage (o : Oracle) : Nat := if o.ckptExists then o.ckptVal else 1

/-- Lines 83-95: `while current_page < start_page` clicks `Next`; starting
from `current` the loop runs `n = start_page - current` times unless a click
fails first.  The boolean is `false` exactly on the `except`/`return` path. -/
def skipGo (nav : Nat → Bool) : Nat → Nat → List Ev × Bool
  | _, 0 => ([], true)
  | current, n + 1 =>
    if nav current then
      let r := skipGo nav (current + 1) n
      (Ev.skipAdv current :: r.1, r.2)
    else ([], false)

/-- Lines 106-126: the `while True` steady loop from page `current`, with
explicit fuel.  Each iteration parses the current page, appends the rows the
writer accepts, rewrites the checkpoint, then tries to advance. -/
def steadyLoop (o : Oracle) : Nat → Nat → List Ev × Outcome
  | _, 0 => ([], Outcome.truncated)
  | current, fuel + 1 =>
    match parse_html current (o.pages current) with
    | Except.error _ => ([], Outcome.exnParse)
    | Except.ok (recs, _) =>
      if (writeRowsAux csv_columns recs).2 then
        if o.navOk current then
          (Ev.append current (writeRowsAux csv_columns recs).1 ::
            Ev.ckptWrite current :: Ev.steadyAdv current ::
            (steadyLoop o (current + 1) fuel).1,
           (steadyLoop o (current + 1) fuel).2)
        else ([Ev.append current (writeRowsAux csv_columns recs).1,
          Ev.ckptWrite current], Outcome.finished)
      else ([Ev.append current (writeRowsAux csv_columns recs).1],
        Outcome.exnWrite)

/-- `fetch_and_write_data` (lines 68-129): read the checkpoint, skip forward
to `start_page` (aborting on any failure), then open the CSV — writing the
header only when `os.path.isfile` was false — and run the steady loop from
`current_page = 1 + (start_page - 1)`, the cursor the skip loop reaches. -/
def fetch_and_write_data (o : Oracle) (fuel : Nat) : List Ev × Outcome :=
  if (skipGo o.navOk 1 (startPage o - 1)).2 then
    ((skipGo o.navOk 1 (startPage o - 1)).1
        ++ (if o.fileExists then [] else [Ev.writeHeader])
        ++ (steadyLoop o (1 + (startPage o - 1)) fuel).1,
      (steadyLoop o (1 + (startPage o - 1)) fuel).2)
  else ((skipGo o.navOk 1 (startPage o - 1)).1, Outcome.skipFailed)

/-- The process exit status reached from each outcome.  On `skipFailed` the
function merely returns (line 95) and `main` goes on to print the success
message, so the interpreter exits with status 0, exactly as on `finished`;
an uncaught exception makes the interpreter exit non-zero. -/
def exitCode : Outcome → Nat
  | Outcome.skipFailed => 0
  | Outcome.finished => 0
  | Outcome.exnParse => 1
  | Outcome.exnWrite => 1
  | Outcome.truncated => 0

/-! ## Trace observers -/

/-- Events that advance the page cursor (`current_page += 1`). -/
def isMove : Ev → Bool
  | Ev.skipAdv _ => true
  | Ev.steadyAdv _ => true
  | _ => false

/-- The value of `current_page` after the events `l`: it starts at 1
(line 83) and each successful `Next` click increments it. -/
def cursorAt (l : List Ev) : Nat := 1 + l.countP isMove

/-- Header-write events. -/
def isHeaderEv : Ev → Bool
  | Ev.writeHeader => true
  | _ => false

/-- How many header rows the events `l` wrote. -/
def headerCount (l : List Ev) : Nat := l.countP isHeaderEv

/-- The checkpoint value a single event writes, if any. -/
def ckptOf : Ev → Option Nat
  | Ev.ckptWrite n => some n
  | Ev.writeHeader => none
  | Ev.append _ _ => none
  | Ev.skipAdv _ => none
  | Ev.steadyAdv _ => none

/-- The value written by the last checkpoint write in `l`, if any. -/
def lastCkpt : List Ev → Option Nat
  | [] => none
  | e :: rest =>
    match lastCkpt rest with
    | some m => some m
    | none => ckptOf e

/-- The persisted checkpoint value after the events `l` of a run against
oracle `o`: the last value written during the run, or, before any write, the
value read at startup (`CheckpointStore.read` defaults to 1). -/
def persistedCkpt (o : Oracle) (l : List Ev) : Nat :=
  (lastCkpt l).getD (if o.ckptExists then o.ckptVal else 1)

/-- The grammar of event lists `steadyLoop` can emit when started at page
`c`: nothing (fuel exhausted at once, or the parse raised); one append (the
writer raised); or a full page — append, checkpoint — optionally followed by
an advance and the events of the next page. -/
inductive SteadyTr : Nat → List Ev → Prop
  | nil (c : Nat) : SteadyTr c []
  | abort (c : Nat) (rows : List (List String)) :
      SteadyTr c [Ev.append c rows]
  | last (c : Nat) (rows : List (List String)) :
      SteadyTr c [Ev.append c rows, Ev.ckptWrite c]
  | step (c : Nat) (rows : List (List String)) (tl : List Ev) :
      SteadyTr (c + 1) tl →
      SteadyTr c (Ev.append c rows :: Ev.ckptWrite c :: Ev.steadyAdv c :: tl)

/-! ## Concrete scenarios used to settle individual claims -/

/-- A listing of two pages, one permit each; page 3 does not exist. -/
def pagesTwo : Nat → List Article := fun p =>
  if p = 1 then [⟨some "P1", []⟩]
  else if p = 2 then [⟨some "P2", []⟩]
  else []

/-- A first run from scratch: no checkpoint file, no CSV file; the `Next`
click succeeds on page 1 and fails (end of listing) on page 2. -/
def oFirstRun : Oracle := ⟨false, 0, false, false, fun p => p == 1, pagesTwo⟩

/-- A restart of `oFirstRun` after it completed: the checkpoint file holds 2
and the CSV file exists with header and rows. -/
def oSecondRun : Oracle := ⟨true, 2, true, true, fun p => p == 1, pagesTwo⟩

/-- A resumed run with checkpoint 5 whose navigation always succeeds. -/
def oCkptFive : Oracle := ⟨true, 5, false, false, fun _ => true, fun _ => []⟩

/-- A resumed run with checkpoint 5, against an existing non-empty CSV. -/
def oSkipping : Oracle := ⟨true, 5, true, true, fun _ => true, fun _ => []⟩

/-- A fresh run over a single one-permit page whose `Next` click fails. -/
def oOnePage : Oracle :=
  ⟨false, 0, false, false, fun _ => false, fun _ => [⟨some "P", []⟩]⟩

/-- A run whose CSV file exists but was empty before the run. -/
def oEmptyFile : Oracle := ⟨false, 0, true, false, fun _ => false, fun _ => []⟩

/-- A resumed run with checkpoint 3 whose first `Next` click fails. -/
def oSkipFails : Oracle := ⟨true, 3, false, false, fun _ => false, fun _ => []⟩

/-! ## Lemmas about the string primitives -/

theorem dropFirstOcc_append_self (pat l : List Char) (h : pat ≠ []) :
    dropFirstOcc pat (pat ++ l) = l := by
  cases pat with
  | nil => exact absurd rfl h
  | cons p ps =>
    have hpre : (p :: ps).isPrefixOf ((p :: ps) ++ l) = true :=
      List.isPrefixOf_iff_prefix.mpr (List.prefix_append _ _)
    show dropFirstOcc (p :: ps) (p :: (ps ++ l)) = l
    simp only [dropFirstOcc]
    rw [show p :: (ps ++ l) = (p :: ps) ++ l from rfl, hpre]
    simp only [if_true]
    exact List.drop_left (p :: ps) l

/-- Removing the leading label from `label ++ v` (line 36) leaves `v`. -/
theorem pyReplaceFirst_label (st v : String) (h : st ≠ "") :
    pyReplaceFirstByEmpty st (st ++ v) = v := by
  have hd : st.data ≠ [] := by
    intro hd; exact h (by cases st; simp_all)
  rw [pyReplaceFirstByEmpty, if_neg (by simpa using hd)]
  rw [show (st ++ v).data = st.data ++ v.data from rfl,
    dropFirstOcc_append_self st.data v.data hd]

/-- Setting a key that is not present appends the pair at the end. -/
theorem dictSet_fresh (d : Rec) (k v : String) (h : ∀ kv ∈ d, kv.1 ≠ k) :
    dictSet d k v = d ++ [(k, v)] := by
  have hany : d.any (fun kv => kv.1 == k) = false :=
    List.any_eq_false.mpr (fun kv hkv => by simpa using h kv hkv)
  simp [dictSet, hany]

/-! ## Lemmas about `processParagraph` on each kind of paragraph -/

/-- A well-formed carrier paragraph (the label followed by a value that
splits into at least two segments): the second-to-last segment becomes the
name, the parenthesis-stripped last segment becomes the code. -/
theorem processParagraph_carrier (page : Nat) (acc : Rec × List Diag)
    (v codePart namePart : String) (tl : List String) (hv : pyStrip v = v)
    (hparts : (pySplitDash v).reverse = codePart :: namePart :: tl) :
    processParagraph page acc
        ⟨some "Air carrier Name (Code):", "Air carrier Name (Code):" ++ v⟩ =
      (dictSet (dictSet acc.1 "air_carrier_name" (pyStrip namePart))
        "air_carrier_code" (pyStripParens codePart), acc.2) := by
  have hval : pyStrip (pyReplaceFirstByEmpty "Air carrier Name (Code):"
      ("Air carrier Name (Code):" ++ v)) = v := by
    rw [pyReplaceFirst_label _ _ (by decide), hv]
  have hkey : pyDropLast "Air carrier Name (Code):" = "Air carrier Name (Code)" := by
    decide
  simp only [processParagraph, hkey, hval, hparts, beq_self_eq_true, if_true]

/-- A malformed carrier paragraph (value with fewer than two segments):
the record is unchanged and a diagnostic is emitted. -/
theorem processParagraph_carrier_bad (page : Nat) (acc : Rec × List Diag)
    (v : String) (hv : pyStrip v = v) (hlen : (pySplitDash v).length < 2) :
    processParagraph page acc
        ⟨some "Air carrier Name (Code):", "Air carrier Name (Code):" ++ v⟩ =
      (acc.1, acc.2 ++ [Diag.carrierFormat page v]) := by
  have hval : pyStrip (pyReplaceFirstByEmpty "Air carrier Name (Code):"
      ("Air carrier Name (Code):" ++ v)) = v := by
    rw [pyReplaceFirst_label _ _ (by decide), hv]
  have hkey : pyDropLast "Air carrier Name (Code):" = "Air carrier Name (Code)" := by
    decide
  simp only [processParagraph, hkey, hval, beq_self_eq_true, if_true]
  rcases hrev : (pySplitDash v).reverse with _ | ⟨a, _ | ⟨b, tl⟩⟩
  · rfl
  · rfl
  · exfalso
    have : (pySplitDash v).length = tl.length + 2 := by
      rw [← List.length_reverse, hrev]; simp
    omega

/-- A well-formed airport paragraph: every segment but the last, re-joined
with the separator, becomes the name; the parenthesis-stripped last segment
becomes the code. -/
theorem processParagraph_airport (page : Nat) (acc : Rec × List Diag)
    (v codePart seg : String) (tl : List String) (hv : pyStrip v = v)
    (hparts : (pySplitDash v).reverse = codePart :: seg :: tl) :
    processParagraph page acc
        ⟨some "Airport Name (Code):", "Airport Name (Code):" ++ v⟩ =
      (dictSet
        (dictSet acc.1 "airport_name"
          (pyStrip (String.intercalate " - " (pySplitDash v).dropLast)))
        "airport_code" (pyStripParens codePart), acc.2) := by
  have hval : pyStrip (pyReplaceFirstByEmpty "Airport Name (Code):"
      ("Airport Name (Code):" ++ v)) = v := by
    rw [pyReplaceFirst_label _ _ (by decide), hv]
  have hkey : pyDropLast "Airport Name (Code):" = "Airport Name (Code)" := by
    decide
  have hne : ("Airport Name (Code)" == "Air carrier Name (Code)") = false := by
    decide
  simp only [processParagraph, hkey, hval, hparts, hne, beq_self_eq_true,
    if_true, if_false, Bool.false_eq_true]

/-- A malformed airport paragraph: record unchanged, diagnostic emitted. -/
theorem processParagraph_airport_bad (page : Nat) (acc : Rec × List Diag)
    (v : String) (hv : pyStrip v = v) (hlen : (pySplitDash v).length < 2) :
    processParagraph page acc
        ⟨some "Airport Name (Code):", "Airport Name (Code):" ++ v⟩ =
      (acc.1, acc.2 ++ [Diag.airportFormat page v]) := by
  have hval : pyStrip (pyReplaceFirstByEmpty "Airport Name (Code):"
      ("Airport Name (Code):" ++ v)) = v := by
    rw [pyReplaceFirst_label _ _ (by decide), hv]
  have hkey : pyDropLast "Airport Name (Code):" = "Airport Name (Code)" := by
    decide
  have hne : ("Airport Name (Code)" == "Air carrier Name (Code)") = false := by
    decide
  simp only [processParagraph, hkey, hval, hne, beq_self_eq_true, if_true,
    if_false, Bool.false_eq_true]
  rcases hrev : (pySplitDash v).reverse with _ | ⟨a, _ | ⟨b, tl⟩⟩
  · rfl
  · rfl
  · exfalso
    have : (pySplitDash v).length = tl.length + 2 := by
      rw [← List.length_reverse, hrev]; simp
    omega

/-- A `Member State:` paragraph stores the value under the normalized
dynamic key `member_state`. -/
theorem processParagraph_memberState (page : Nat) (acc : Rec × List Diag)
    (ms : String) :
    processParagraph page acc ⟨some "Member State:", "Member State:" ++ ms⟩ =
      (dictSet acc.1 "member_state" (pyStrip ms), acc.2) := by
  have hkey : pyDropLast "Member State:" = "Member State" := by decide
  have hne1 : ("Member State" == "Air carrier Name (Code)") = false := by decide
  have hne2 : ("Member State" == "Airport Name (Code)") = false := by decide
  have hnorm : keyNormalize "Member State" = "member_state" := by decide
  have hval : pyStrip (pyReplaceFirstByEmpty "Member State:"
      ("Member State:" ++ ms)) = pyStrip ms := by
    rw [pyReplaceFirst_label _ _ (by decide)]
  simp only [processParagraph, hkey, hne1, hne2, hnorm, hval, if_false,
    Bool.false_eq_true]

/-- Sequencing `parse_html` over the head article when nothing raises. -/
theorem parse_html_cons_ok (page : Nat) (a : Article) (rest : List Article)
    (d : Rec) (ds : List Diag) (l : List Rec) (ds' : List Diag)
    (h : processArticle page a = Except.ok (d, ds))
    (h' : parse_html page rest = Except.ok (l, ds')) :
    parse_html page (a :: rest) =
      Except.ok ((if d.isEmpty then l else d :: l), ds ++ ds') := by
  simp only [parse_html, h, h']
  rfl

/-! ## Claims C3, C4, C5, C6 -/

/-- C3: for every carrier composite value that splits on the separator into
at least 2 segments (`parts.reverse = codePart :: namePart :: tl`), the
extractor stores the second-to-last segment as `air_carrier_name` and the
last segment with parentheses stripped as `air_carrier_code`, alongside the
block's permit id. -/
theorem carrier_composite_decomposition (page : Nat)
    (pid v codePart namePart : String) (tl : List String)
    (hpid : pid ≠ "") (hv : pyStrip v = v)
    (hparts : (pySplitDash v).reverse = codePart :: namePart :: tl) :
    parse_html page [⟨some pid,
        [⟨some "Air carrier Name (Code):", "Air carrier Name (Code):" ++ v⟩]⟩] =
      Except.ok ([[("permit_id", pid),
        ("air_carrier_name", pyStrip namePart),
        ("air_carrier_code", pyStripParens codePart)]], []) := by
  have hbpid : (pid == "") = false := beq_eq_false_iff_ne.mpr hpid
  have hd0 : dictSet [] "permit_id" pid = [("permit_id", pid)] :=
    dictSet_fresh [] _ _ (by simp)
  have hstep := processParagraph_carrier page ([("permit_id", pid)], [])
    v codePart namePart tl hv hparts
  have h1 : dictSet [("permit_id", pid)] "air_carrier_name" (pyStrip namePart)
      = [("permit_id", pid), ("air_carrier_name", pyStrip namePart)] :=
    dictSet_fresh _ _ _ (by
      intro kv hkv; simp at hkv; subst hkv
      exact (by decide : ("permit_id" : String) ≠ "air_carrier_name"))
  have h2 : dictSet [("permit_id", pid), ("air_carrier_name", pyStrip namePart)]
        "air_carrier_code" (pyStripParens codePart)
      = [("permit_id", pid), ("air_carrier_name", pyStrip namePart),
         ("air_carrier_code", pyStripParens codePart)] :=
    dictSet_fresh _ _ _ (by
      intro kv hkv; simp at hkv
      rcases hkv with rfl | rfl
      · exact (by decide : ("permit_id" : String) ≠ "air_carrier_code")
      · exact (by decide : ("air_carrier_name" : String) ≠ "air_carrier_code"))
  have hart : processArticle page (⟨some pid,
      [⟨some "Air carrier Name (Code):", "Air carrier Name (Code):" ++ v⟩]⟩ : Article)
      = Except.ok ([("permit_id", pid), ("air_carrier_name", pyStrip namePart),
          ("air_carrier_code", pyStripParens codePart)], []) := by
    simp only [processArticle, hbpid, Bool.false_eq_true, if_false, hd0,
      List.foldl_cons, List.foldl_nil, hstep, h1, h2]
  rw [parse_html_cons_ok page _ [] _ _ [] [] hart rfl]
  simp

/-- C3 witness: the 2-segment input of the claim. -/
theorem carrier_composite_decomposition_example :
    parse_html 1 [⟨some "X",
        [⟨some "Air carrier Name (Code):",
          "Air carrier Name (Code):" ++ "British Airways - (BA)"⟩]⟩] =
      Except.ok ([[("permit_id", "X"), ("air_carrier_name", "British Airways"),
        ("air_carrier_code", "BA")]], []) :=
  (carrier_composite_decomposition 1 "X" "British Airways - (BA)"
      "(BA)" "British Airways" [] (by decide) (by decide) (by decide)).trans
    (congrArg Except.ok (by decide))

/-- C4: for every airport composite value splitting into at least 2
segments, the extractor stores all segments but the last rejoined with the
separator as `airport_name` and the parenthesis-stripped last segment as
`airport_code`. -/
theorem airport_composite_decomposition (page : Nat)
    (pid v codePart seg : String) (tl : List String)
    (hpid : pid ≠ "") (hv : pyStrip v = v)
    (hparts : (pySplitDash v).reverse = codePart :: seg :: tl) :
    parse_html page [⟨some pid,
        [⟨some "Airport Name (Code):", "Airport Name (Code):" ++ v⟩]⟩] =
      Except.ok ([[("permit_id", pid),
        ("airport_name", pyStrip (String.intercalate " - " (pySplitDash v).dropLast)),
        ("airport_code", pyStripParens codePart)]], []) := by
  have hbpid : (pid == "") = false := beq_eq_false_iff_ne.mpr hpid
  have hd0 : dictSet [] "permit_id" pid = [("permit_id", pid)] :=
    dictSet_fresh [] _ _ (by simp)
  have hstep := processParagraph_airport page ([("permit_id", pid)], [])
    v codePart seg tl hv hparts
  have h1 : dictSet [("permit_id", pid)] "airport_name"
        (pyStrip (String.intercalate " - " (pySplitDash v).dropLast))
      = [("permit_id", pid),
         ("airport_name", pyStrip (String.intercalate " - " (pySplitDash v).dropLast))] :=
    dictSet_fresh _ _ _ (by
      intro kv hkv; simp at hkv; subst hkv
      exact (by decide : ("permit_id" : String) ≠ "airport_name"))
  have h2 : dictSet [("permit_id", pid),
        ("airport_name", pyStrip (String.intercalate " - " (pySplitDash v).dropLast))]
        "airport_code" (pyStripParens codePart)
      = [("permit_id", pid),
         ("airport_name", pyStrip (String.intercalate " - " (pySplitDash v).dropLast)),
         ("airport_code", pyStripParens codePart)] :=
    dictSet_fresh _ _ _ (by
      intro kv hkv; simp at hkv
      rcases hkv with rfl | rfl
      · exact (by decide : ("permit_id" : String) ≠ "airport_code")
      · exact (by decide : ("airport_name" : String) ≠ "airport_code"))
  have hart : processArticle page (⟨some pid,
      [⟨some "Airport Name (Code):", "Airport Name (Code):" ++ v⟩]⟩ : Article)
      = Except.ok ([("permit_id", pid),
          ("airport_name", pyStrip (String.intercalate " - " (pySplitDash v).dropLast)),
          ("airport_code", pyStripParens codePart)], []) := by
    simp only [processArticle, hbpid, Bool.false_eq_true, if_false, hd0,
      List.foldl_cons, List.foldl_nil, hstep, h1, h2]
  rw [parse_html_cons_ok page _ [] _ _ [] [] hart rfl]
  simp

/-- C4 witness: the embedded-hyphen input of the claim. -/
theorem airport_composite_decomposition_example :
    parse_html 1 [⟨some "X",
        [⟨some "Airport Name (Code):",
          "Airport Name (Code):" ++ "Frankfurt am Main - Intl - (FRA)"⟩]⟩] =
      Except.ok ([[("permit_id", "X"),
        ("airport_name", "Frankfurt am Main - Intl"),
        ("airport_code", "FRA")]], []) :=
  (airport_composite_decomposition 1 "X" "Frankfurt am Main - Intl - (FRA)"
      "(FRA)" "Intl" ["Frankfurt am Main"] (by decide) (by decide) (by decide)).trans
    (congrArg Except.ok (by decide))

/-- C5: a composite value with fewer than 2 segments sets neither the name
nor the code sub-field, emits a diagnostic, and leaves the block's other
fields (here the permit id and a `Member State` field) in the emitted
record — for the carrier composite and the airport composite alike. -/
theorem malformed_composite_recovery (page : Nat) (pid v ms : String)
    (hpid : pid ≠ "") (hv : pyStrip v = v)
    (hlen : (pySplitDash v).length < 2) :
    (parse_html page [⟨some pid,
        [⟨some "Air carrier Name (Code):", "Air carrier Name (Code):" ++ v⟩,
         ⟨some "Member State:", "Member State:" ++ ms⟩]⟩] =
      Except.ok ([[("permit_id", pid), ("member_state", pyStrip ms)]],
        [Diag.carrierFormat page v]))
    ∧ (parse_html page [⟨some pid,
        [⟨some "Airport Name (Code):", "Airport Name (Code):" ++ v⟩,
         ⟨some "Member State:", "Member State:" ++ ms⟩]⟩] =
      Except.ok ([[("permit_id", pid), ("member_state", pyStrip ms)]],
        [Diag.airportFormat page v])) := by
  have hbpid : (pid == "") = false := beq_eq_false_iff_ne.mpr hpid
  have hd0 : dictSet [] "permit_id" pid = [("permit_id", pid)] :=
    dictSet_fresh [] _ _ (by simp)
  have hms : dictSet [("permit_id", pid)] "member_state" (pyStrip ms)
      = [("permit_id", pid), ("member_state", pyStrip ms)] :=
    dictSet_fresh _ _ _ (by
      intro kv hkv; simp at hkv; subst hkv
      exact (by decide : ("permit_id" : String) ≠ "member_state"))
  have hcar := processParagraph_carrier_bad page ([("permit_id", pid)], []) v hv hlen
  have hair := processParagraph_airport_bad page ([("permit_id", pid)], []) v hv hlen
  have hms1 := processParagraph_memberState page
    ([("permit_id", pid)], [Diag.carrierFormat page v]) ms
  have hms2 := processParagraph_memberState page
    ([("permit_id", pid)], [Diag.airportFormat page v]) ms
  constructor
  · have hart : processArticle page (⟨some pid,
        [⟨some "Air carrier Name (Code):", "Air carrier Name (Code):" ++ v⟩,
         ⟨some "Member State:", "Member State:" ++ ms⟩]⟩ : Article)
        = Except.ok ([("permit_id", pid), ("member_state", pyStrip ms)],
            [Diag.carrierFormat page v]) := by
      simp only [processArticle, hbpid, Bool.false_eq_true, if_false, hd0,
        List.foldl_cons, List.foldl_nil, List.nil_append, hcar, hms1, hms]
    rw [parse_html_cons_ok page _ [] _ _ [] [] hart rfl]
    simp
  · have hart : processArticle page (⟨some pid,
        [⟨some "Airport Name (Code):", "Airport Name (Code):" ++ v⟩,
         ⟨some "Member State:", "Member State:" ++ ms⟩]⟩ : Article)
        = Except.ok ([("permit_id", pid), ("member_state", pyStrip ms)],
            [Diag.airportFormat page v]) := by
      simp only [processArticle, hbpid, Bool.false_eq_true, if_false, hd0,
        List.foldl_cons, List.foldl_nil, List.nil_append, hair, hms2, hms]
    rw [parse_html_cons_ok page _ [] _ _ [] [] hart rfl]
    simp

/-- C5 witness: the separator-free input of the claim, for both composites. -/
theorem malformed_composite_recovery_example :
    (parse_html 7 [⟨some "X",
        [⟨some "Air carrier Name (Code):",
          "Air carrier Name (Code):" ++ "JUST-ONE-TOKEN"⟩,
         ⟨some "Member State:", "Member State:" ++ "Germany"⟩]⟩] =
      Except.ok ([[("permit_id", "X"), ("member_state", "Germany")]],
        [Diag.carrierFormat 7 "JUST-ONE-TOKEN"]))
    ∧ (parse_html 7 [⟨some "X",
        [⟨some "Airport Name (Code):",
          "Airport Name (Code):" ++ "JUST-ONE-TOKEN"⟩,
         ⟨some "Member State:", "Member State:" ++ "Germany"⟩]⟩] =
      Except.ok ([[("permit_id", "X"), ("member_state", "Germany")]],
        [Diag.airportFormat 7 "JUST-ONE-TOKEN"])) := by
  have h := malformed_composite_recovery 7 "X" "JUST-ONE-TOKEN" "Germany"
    (by decide) (by decide) (by decide)
  exact ⟨h.1.trans (congrArg Except.ok (by decide)),
    h.2.trans (congrArg Except.ok (by decide))⟩

/-- C6: refuted — extraction is not exception-free.  A structural entry
block with no bold permit paragraph (`article.find` returns `None`) makes
line 27 call `.get_text` on `None`, raising `AttributeError` and aborting
the whole page; this theorem evaluates the embedded code at that failing
input. -/
theorem extraction_raises_on_missing_permit_paragraph :
    parse_html 1 [⟨none, []⟩] =
      Except.error "AttributeError: NoneType has no attribute get_text" := rfl

/-! ## Lemmas about the orchestrator trace -/

/-- The skip phase only ever clicks `Next`: every event it emits is a
`skipAdv`. -/
theorem skipGo_mem (nav : Nat → Bool) :
    ∀ n c ev, ev ∈ (skipGo nav c n).1 → ∃ p, ev = Ev.skipAdv p := by
  intro n
  induction n with
  | zero => intro c ev h; simp [skipGo] at h
  | succ n ih =>
    intro c ev h
    by_cases hn : nav c = true
    · simp only [skipGo, hn, if_true, List.mem_cons] at h
      rcases h with rfl | h
      · exact ⟨c, rfl⟩
      · exact ih (c + 1) ev h
    · simp [skipGo, hn] at h

/-- When every `Next` click up to the resume target succeeds, the skip phase
advances once per intervening page and succeeds. -/
theorem skipGo_true_shape (nav : Nat → Bool) :
    ∀ n c, (∀ p, c ≤ p → p < c + n → nav p = true) →
      skipGo nav c n = ((List.range' c n).map Ev.skipAdv, true) := by
  intro n
  induction n with
  | zero => intro c _; simp [skipGo]
  | succ n ih =>
    intro c h
    have hc : nav c = true := h c le_rfl (by omega)
    rw [List.range'_succ]
    simp only [skipGo, hc, if_true, List.map_cons,
      ih (c + 1) (fun p h1 h2 => h p (by omega) (by omega))]

/-- A successful skip phase emitted exactly one advance per page skipped. -/
theorem skipGo_success_shape (nav : Nat → Bool) :
    ∀ n c, (skipGo nav c n).2 = true →
      (skipGo nav c n).1 = (List.range' c n).map Ev.skipAdv := by
  intro n
  induction n with
  | zero => intro c _; simp [skipGo]
  | succ n ih =>
    intro c h
    by_cases hc : nav c = true
    · rw [List.range'_succ]
      simp only [skipGo, hc, if_true, List.map_cons] at h ⊢
      rw [ih (c + 1) h]
    · simp [skipGo, hc] at h

/-- The steady loop's event list always fits the grammar `SteadyTr`. -/
theorem steadyLoop_tr (o : Oracle) :
    ∀ fuel c, SteadyTr c (steadyLoop o c fuel).1 := by
  intro fuel
  induction fuel with
  | zero => intro c; exact SteadyTr.nil c
  | succ fuel ih =>
    intro c
    rw [steadyLoop]
    cases hp : parse_html c (o.pages c) with
    | error e => exact SteadyTr.nil c
    | ok pr =>
      obtain ⟨recs, ds⟩ := pr
      by_cases hw : (writeRowsAux csv_columns recs).2 = true
      · by_cases hn : o.navOk c = true
        · simp only [hw, hn, if_true]
          exact SteadyTr.step c _ _ (ih (c + 1))
        · simp only [hw, hn, if_true, if_false, Bool.false_eq_true]
          exact SteadyTr.last c _
      · simp only [hw, if_false, Bool.false_eq_true]
        exact SteadyTr.abort c _

/-- Every steady-loop event is an append, a checkpoint write or an advance,
for a page at or beyond the loop's starting page. -/
theorem steadyTr_mem {c : Nat} {evs : List Ev} (h : SteadyTr c evs) :
    ∀ ev ∈ evs,
      (∃ p rows, ev = Ev.append p rows ∧ c ≤ p)
      ∨ (∃ n, ev = Ev.ckptWrite n ∧ c ≤ n)
      ∨ (∃ p, ev = Ev.steadyAdv p ∧ c ≤ p) := by
  induction h with
  | nil c => intro ev hev; simp at hev
  | abort c rows =>
    intro ev hev
    simp only [List.mem_singleton] at hev
    exact Or.inl ⟨c, rows, hev, le_rfl⟩
  | last c rows =>
    intro ev hev
    rcases List.mem_cons.mp hev with rfl | hev
    · exact Or.inl ⟨c, rows, rfl, le_rfl⟩
    · simp only [List.mem_singleton] at hev
      exact Or.inr (Or.inl ⟨c, hev, le_rfl⟩)
  | step c rows tl htl ih =>
    intro ev hev
    rcases List.mem_cons.mp hev with rfl | hev
    · exact Or.inl ⟨c, rows, rfl, le_rfl⟩
    rcases List.mem_cons.mp hev with rfl | hev
    · exact Or.inr (Or.inl ⟨c, rfl, le_rfl⟩)
    rcases List.mem_cons.mp hev with rfl | hev
    · exact Or.inr (Or.inr ⟨c, rfl, le_rfl⟩)
    rcases ih ev hev with ⟨p, rows', rfl, hle⟩ | ⟨n, rfl, hle⟩ | ⟨p, rfl, hle⟩
    · exact Or.inl ⟨p, rows', rfl, by omega⟩
    · exact Or.inr (Or.inl ⟨n, rfl, by omega⟩)
    · exact Or.inr (Or.inr ⟨p, rfl, by omega⟩)

/-- Inside a steady-loop trace started at page `c`, a checkpoint write of
`n` happens at cursor `n = c + number of advances so far`, and comes right
after the append of page `n`'s rows. -/
theorem steadyTr_ckpt_split {c : Nat} {evs : List Ev} (h : SteadyTr c evs) :
    ∀ pre n suffix, evs = pre ++ Ev.ckptWrite n :: suffix →
      n = c + pre.countP isMove ∧ ∃ pre' rows, pre = pre' ++ [Ev.append n rows] := by
  induction h with
  | nil c => intro pre n suffix heq; simp at heq
  | abort c rows =>
    intro pre n suffix heq
    cases pre with
    | nil => simp at heq
    | cons e pre' =>
      simp only [List.cons_append, List.cons.injEq] at heq
      rcases heq with ⟨rfl, heq⟩
      cases pre' <;> simp at heq
  | last c rows =>
    intro pre n suffix heq
    cases pre with
    | nil => simp at heq
    | cons e pre' =>
      simp only [List.cons_append, List.cons.injEq] at heq
      rcases heq with ⟨rfl, heq⟩
      cases pre' with
      | cons e2 pre'' =>
        simp only [List.cons_append, List.cons.injEq] at heq
        rcases heq with ⟨rfl, heq⟩
        cases pre'' <;> simp at heq
      | nil =>
        simp only [List.nil_append, List.cons.injEq] at heq
        rcases heq with ⟨he, -⟩
        injection he with he
        subst he
        exact ⟨by simp [isMove], [], rows, by simp⟩
  | step c rows tl htl ih =>
    intro pre n suffix heq
    cases pre with
    | nil => simp at heq
    | cons e pre' =>
      simp only [List.cons_append, List.cons.injEq] at heq
      rcases heq with ⟨rfl, heq⟩
      cases pre' with
      | nil =>
        simp only [List.nil_append, List.cons.injEq] at heq
        rcases heq with ⟨he, -⟩
        injection he with he
        subst he
        exact ⟨by simp [isMove], [], rows, by simp⟩
      | cons e2 pre'' =>
        simp only [List.cons_append, List.cons.injEq] at heq
        rcases heq with ⟨rfl, heq⟩
        cases pre'' with
        | nil => simp at heq
        | cons e3 pre3 =>
          simp only [List.cons_append, List.cons.injEq] at heq
          rcases heq with ⟨rfl, heq⟩
          obtain ⟨hn, pre4, rows', hpre⟩ := ih pre3 n suffix heq
          refine ⟨?_, Ev.append c rows :: Ev.ckptWrite c :: Ev.steadyAdv c :: pre4,
            rows', by simp [hpre]⟩
          simp [List.countP_cons, isMove] at hn ⊢
          omega

/-- When the trace has a last checkpoint write, it can be split at it. -/
theorem lastCkpt_split :
    ∀ (l : List Ev) (m : Nat), lastCkpt l = some m →
      ∃ l1 l2, l = l1 ++ Ev.ckptWrite m :: l2 := by
  intro l
  induction l with
  | nil => intro m h; simp [lastCkpt] at h
  | cons e rest ih =>
    intro m h
    rw [lastCkpt] at h
    cases hr : lastCkpt rest with
    | some m' =>
      simp only [hr] at h
      injection h with h
      subst h
      obtain ⟨l1, l2, rfl⟩ := ih m' hr
      exact ⟨e :: l1, l2, rfl⟩
    | none =>
      simp only [hr] at h
      cases e with
      | ckptWrite n =>
        simp only [ckptOf] at h
        injection h with h
        subst h
        exact ⟨[], rest, rfl⟩
      | writeHeader => simp [ckptOf] at h
      | append p rows => simp [ckptOf] at h
      | skipAdv p => simp [ckptOf] at h
      | steadyAdv p => simp [ckptOf] at h

/-- A list whose events are all skip advances writes no checkpoint. -/
theorem lastCkpt_none_of_skip (l : List Ev)
    (h : ∀ ev ∈ l, ∃ p, ev = Ev.skipAdv p) : lastCkpt l = none := by
  induction l with
  | nil => rfl
  | cons e rest ih =>
    rw [lastCkpt, ih (fun ev hev => h ev (List.mem_cons_of_mem e hev))]
    obtain ⟨p, rfl⟩ := h e (List.mem_cons_self e rest)
    rfl

/-- Splitting a concatenation at an element absent from the left part. -/
theorem append_eq_split {α : Type} (l1 : List α) :
    ∀ (l2 pre suf : List α) (x : α), l1 ++ l2 = pre ++ x :: suf → x ∉ l1 →
      ∃ mid, pre = l1 ++ mid ∧ l2 = mid ++ x :: suf := by
  induction l1 with
  | nil => intro l2 pre suf x h _; exact ⟨pre, by simp, by simpa using h⟩
  | cons a l1 ih =>
    intro l2 pre suf x h hx
    cases pre with
    | nil =>
      simp only [List.cons_append, List.nil_append, List.cons.injEq] at h
      exact absurd (h.1 ▸ List.mem_cons_self a l1) hx
    | cons b pre' =>
      simp only [List.cons_append, List.cons.injEq] at h
      obtain ⟨rfl, h2⟩ := h
      obtain ⟨mid, hpre, hl2⟩ :=
        ih l2 pre' suf x h2 (fun hm => hx (List.mem_cons_of_mem _ hm))
      exact ⟨mid, by rw [hpre, List.cons_append], hl2⟩

/-- A list with no header event writes no header row. -/
theorem headerCount_eq_zero (l : List Ev)
    (h : ∀ ev ∈ l, isHeaderEv ev = false) : headerCount l = 0 :=
  List.countP_eq_zero.mpr (fun ev hev => by simp [h ev hev])

/-- Skip-phase events are not header writes. -/
theorem headerCount_skip (nav : Nat → Bool) (n c : Nat) :
    headerCount (skipGo nav c n).1 = 0 :=
  headerCount_eq_zero _ (fun ev hev => by
    obtain ⟨p, rfl⟩ := skipGo_mem nav n c ev hev
    rfl)

/-- Steady-loop events are not header writes. -/
theorem headerCount_steady (o : Oracle) (fuel c : Nat) :
    headerCount (steadyLoop o c fuel).1 = 0 :=
  headerCount_eq_zero _ (fun ev hev => by
    rcases steadyTr_mem (steadyLoop_tr o fuel c) ev hev with
      ⟨p, rows, rfl, -⟩ | ⟨n, rfl, -⟩ | ⟨p, rfl, -⟩ <;> rfl)

/-- Steady-loop events are never skip advances. -/
theorem steadyTr_not_skipAdv {c : Nat} {evs : List Ev} (h : SteadyTr c evs)
    (ev : Ev) (hev : ev ∈ evs) : ∀ p, ev ≠ Ev.skipAdv p := by
  rcases steadyTr_mem h ev hev with
    ⟨p, rows, rfl, -⟩ | ⟨n, rfl, -⟩ | ⟨p, rfl, -⟩ <;> intro q <;> simp

/-- A successful skip phase advances the cursor exactly to the resume
target: its events count `startPage o - 1` moves and no header. -/
theorem skipGo_countP_moves (nav : Nat → Bool) (n : Nat)
    (h : (skipGo nav 1 n).2 = true) :
    (skipGo nav 1 n).1.countP isMove = n := by
  rw [skipGo_success_shape nav n 1 h]
  rw [List.countP_eq_length.mpr (fun a ha => by
    obtain ⟨p, -, rfl⟩ := List.mem_map.mp ha
    rfl)]
  simp

/-- The pre-steady part of a run's trace never writes a checkpoint. -/
theorem ckpt_not_mem_preSteady (o : Oracle) (n : Nat) :
    Ev.ckptWrite n ∉ (skipGo o.navOk 1 (startPage o - 1)).1
      ++ (if o.fileExists then [] else [Ev.writeHeader]) := by
  intro hmem
  rcases List.mem_append.mp hmem with hmem | hmem
  · obtain ⟨p, hp⟩ := skipGo_mem o.navOk _ 1 _ hmem
    simp at hp
  · by_cases hf : o.fileExists <;> simp [hf] at hmem

/-- Every checkpoint write of a run writes the cursor value of the moment
and directly follows the append of that very page's rows. -/
theorem run_ckpt_split (o : Oracle) (fuel : Nat) :
    ∀ pre n suffix,
      (fetch_and_write_data o fuel).1 = pre ++ Ev.ckptWrite n :: suffix →
      n = cursorAt pre ∧ ∃ pre' rows, pre = pre' ++ [Ev.append n rows] := by
  intro pre n suffix heq
  by_cases hskip : (skipGo o.navOk 1 (startPage o - 1)).2 = true
  · simp only [fetch_and_write_data, hskip, if_true] at heq
    rw [List.append_assoc] at heq
    rw [← List.append_assoc] at heq
    obtain ⟨mid, hpre, hsteady⟩ :=
      append_eq_split _ _ pre suffix _ heq (ckpt_not_mem_preSteady o n)
    obtain ⟨hn, pre4, rows, hmid⟩ :=
      steadyTr_ckpt_split (steadyLoop_tr o fuel (1 + (startPage o - 1)))
        mid n suffix hsteady
    constructor
    · rw [hpre]
      simp only [cursorAt, List.countP_append]
      have hsc := skipGo_countP_moves o.navOk (startPage o - 1) hskip
      have hhc : (if o.fileExists then ([] : List Ev)
          else [Ev.writeHeader]).countP isMove = 0 := by
        by_cases hf : o.fileExists <;> simp [hf, isMove]
      omega
    · exact ⟨(skipGo o.navOk 1 (startPage o - 1)).1
          ++ (if o.fileExists then [] else [Ev.writeHeader]) ++ pre4, rows,
        by rw [hpre, hmid, List.append_assoc, List.append_assoc,
          List.append_assoc]⟩
  · simp [fetch_and_write_data, hskip] at heq
    have hmem : Ev.ckptWrite n ∈ (skipGo o.navOk 1 (startPage o - 1)).1 := by
      rw [heq]
      exact List.mem_append_right pre (List.mem_cons_self _ _)
    obtain ⟨p, hp⟩ := skipGo_mem o.navOk _ 1 _ hmem
    simp at hp

/-- Any checkpoint value written by the run never exceeds the cursor at any
later point of the trace. -/
theorem run_lastCkpt_le (o : Oracle) (fuel : Nat) :
    ∀ pre suffix m,
      (fetch_and_write_data o fuel).1 = pre ++ suffix →
      lastCkpt pre = some m → m ≤ cursorAt pre := by
  intro pre suffix m heq hlast
  obtain ⟨l1, l2, rfl⟩ := lastCkpt_split pre m hlast
  have heq2 : (fetch_and_write_data o fuel).1 =
      l1 ++ Ev.ckptWrite m :: (l2 ++ suffix) := by
    rw [heq, List.append_assoc]
    rfl
  obtain ⟨hm, -⟩ := run_ckpt_split o fuel l1 m (l2 ++ suffix) heq2
  rw [hm]
  simp only [cursorAt, List.countP_append]
  omega

/-! ## Claims C7, C8, C9 -/

/-- C7 corrected counterexample: as stated, the claim fails — at the very
start of a resumed run with persisted checkpoint 5, the persisted value (5)
exceeds the page cursor (1), and it stays ahead throughout the skip phase. -/
theorem ckpt_le_cursor_fails_during_skip :
    ¬ (∀ pre suffix, (fetch_and_write_data oSkipping 1).1 = pre ++ suffix →
        persistedCkpt oSkipping pre ≤ cursorAt pre) :=
  fun h => absurd (h [] (fetch_and_write_data oSkipping 1).1 rfl) (by decide)

/-- C7 amended: the per-page ordering does hold — every checkpoint write of
a run writes exactly the current page cursor and is immediately preceded by
the append of that page's rows, so every checkpoint value written during
the run is at most the cursor at every later point.  (Before the first
write of the run, during the skip phase, the stale persisted value may
exceed the cursor.) -/
theorem checkpoint_write_ordering (o : Oracle) (fuel : Nat) :
    (∀ pre n suffix,
        (fetch_and_write_data o fuel).1 = pre ++ Ev.ckptWrite n :: suffix →
        n = cursorAt pre ∧ ∃ pre' rows, pre = pre' ++ [Ev.append n rows])
    ∧ (∀ pre suffix m,
        (fetch_and_write_data o fuel).1 = pre ++ suffix →
        lastCkpt pre = some m → m ≤ cursorAt pre) :=
  ⟨run_ckpt_split o fuel, run_lastCkpt_le o fuel⟩

/-- C7 witness: in the one-page run, the single checkpoint write carries the
cursor value 1 and directly follows the append of page 1's rows. -/
theorem checkpoint_write_ordering_example :
    1 = cursorAt [Ev.writeHeader, Ev.append 1 [["P", "", "", "", "", "", ""]]]
    ∧ ∃ pre' rows, [Ev.writeHeader, Ev.append 1 [["P", "", "", "", "", "", ""]]]
        = pre' ++ [Ev.append 1 rows] :=
  (checkpoint_write_ordering oOnePage 1).1
    [Ev.writeHeader, Ev.append 1 [["P", "", "", "", "", "", ""]]] 1 [] (by decide)

/-- C8 corrected counterexample: the code tests only `os.path.isfile`
(line 98), so against a CSV file that exists but was empty before the run —
a target the claim's condition covers — no header row is written at all,
not exactly one. -/
theorem header_missing_for_existing_empty_file :
    ¬ (headerCount (fetch_and_write_data oEmptyFile 1).1 =
        if !oEmptyFile.fileExists || !oEmptyFile.fileNonEmpty then 1 else 0) := by
  decide

/-- C8 amended: the header row is written exactly once when the run passes
the skip phase and the output file did not previously exist, and never
otherwise — in particular never when the file already exists, whether empty
or already holding a header and rows. -/
theorem header_written_iff_file_new (o : Oracle) (fuel : Nat) :
    headerCount (fetch_and_write_data o fuel).1 =
      if (skipGo o.navOk 1 (startPage o - 1)).2 && !o.fileExists then 1 else 0 := by
  have h1 : headerCount (skipGo o.navOk 1 (startPage o - 1)).1 = 0 :=
    headerCount_skip o.navOk _ 1
  have h3 : headerCount (steadyLoop o (1 + (startPage o - 1)) fuel).1 = 0 :=
    headerCount_steady o fuel _
  by_cases hskip : (skipGo o.navOk 1 (startPage o - 1)).2 = true
  · simp only [fetch_and_write_data, hskip, if_true, Bool.true_and]
    simp only [headerCount, List.countP_append] at h1 h3 ⊢
    by_cases hf : o.fileExists <;>
      simp [hf, h1, h3, isHeaderEv, List.countP_cons]
  · have hskip' : (skipGo o.navOk 1 (startPage o - 1)).2 = false := by
      simpa using hskip
    simp [fetch_and_write_data, hskip', h1]

/-- C9 corrected counterexample: a run whose skip phase fails does stop,
but with outcome `skipFailed` reached by a plain `return` — the process
exit status is 0, not non-zero as claimed. -/
theorem skip_failure_exits_zero :
    (fetch_and_write_data oSkipFails 5).1 = []
    ∧ (fetch_and_write_data oSkipFails 5).2 = Outcome.skipFailed
    ∧ exitCode (fetch_and_write_data oSkipFails 5).2 = 0 := by
  decide

/-- C9 amended: whenever a `Next` click fails during the skip phase, the run
stops with outcome `skipFailed` and performs no further writes — every event
of its trace is a skip advance, so no header write, no record append and no
checkpoint write happen — but the process exits with status 0 (the code
merely returns and `main` prints the success message). -/
theorem skip_failure_stops_writes (o : Oracle) (fuel : Nat)
    (h : (skipGo o.navOk 1 (startPage o - 1)).2 = false) :
    (fetch_and_write_data o fuel).2 = Outcome.skipFailed
    ∧ exitCode (fetch_and_write_data o fuel).2 = 0
    ∧ ∀ ev ∈ (fetch_and_write_data o fuel).1, ∃ p, ev = Ev.skipAdv p := by
  have hfw : fetch_and_write_data o fuel =
      ((skipGo o.navOk 1 (startPage o - 1)).1, Outcome.skipFailed) := by
    rw [fetch_and_write_data, if_neg (by simp [h])]
  rw [hfw]
  exact ⟨rfl, rfl, fun ev hev => skipGo_mem o.navOk _ 1 ev hev⟩

/-- C9 witness: the amended statement at a concrete failing-skip run. -/
theorem skip_failure_stops_writes_example :
    (fetch_and_write_data oSkipFails 1).2 = Outcome.skipFailed
    ∧ exitCode (fetch_and_write_data oSkipFails 1).2 = 0 :=
  ⟨(skip_failure_stops_writes oSkipFails 1 (by decide)).1,
   (skip_failure_stops_writes oSkipFails 1 (by decide)).2.1⟩

/-! ## Claims C2, C1 -/

/-- C2: with persisted checkpoint 5 and navigation succeeding on pages 1-4,
the run's trace is exactly four skip advances, then the header decision,
then the steady loop entered at cursor 5; in particular no record append
and no checkpoint write happens for any page below 5. -/
theorem resumption_skip_phase (o : Oracle) (fuel : Nat)
    (h1 : o.ckptExists = true) (h2 : o.ckptVal = 5)
    (h3 : ∀ p, 1 ≤ p → p < 5 → o.navOk p = true) :
    (fetch_and_write_data o fuel).1 =
      [Ev.skipAdv 1, Ev.skipAdv 2, Ev.skipAdv 3, Ev.skipAdv 4]
        ++ (if o.fileExists then [] else [Ev.writeHeader])
        ++ (steadyLoop o 5 fuel).1
    ∧ (∀ p rows, Ev.append p rows ∈ (fetch_and_write_data o fuel).1 → 5 ≤ p)
    ∧ (∀ n, Ev.ckptWrite n ∈ (fetch_and_write_data o fuel).1 → 5 ≤ n) := by
  have hstart : startPage o = 5 := by simp [startPage, h1, h2]
  have hskip : skipGo o.navOk 1 4 =
      ([Ev.skipAdv 1, Ev.skipAdv 2, Ev.skipAdv 3, Ev.skipAdv 4], true) := by
    have hsh := skipGo_true_shape o.navOk 4 1 (fun p hp1 hp2 => h3 p hp1 (by omega))
    rw [hsh]
    norm_num [List.range']
  have htrace : (fetch_and_write_data o fuel).1 =
      [Ev.skipAdv 1, Ev.skipAdv 2, Ev.skipAdv 3, Ev.skipAdv 4]
        ++ (if o.fileExists then [] else [Ev.writeHeader])
        ++ (steadyLoop o 5 fuel).1 := by
    rw [fetch_and_write_data, hstart]
    norm_num [hskip]
  refine ⟨htrace, ?_, ?_⟩
  · intro p rows hmem
    rw [htrace] at hmem
    rcases List.mem_append.mp hmem with hmem | hmem
    · rcases List.mem_append.mp hmem with hmem | hmem
      · simp at hmem
      · by_cases hf : o.fileExists <;> simp [hf] at hmem
    · rcases steadyTr_mem (steadyLoop_tr o fuel 5) _ hmem with
        ⟨p', rows', heq, hle⟩ | ⟨n', heq, -⟩ | ⟨p', heq, -⟩
      · injection heq with ha hb
        rw [ha]
        exact hle
      · exact absurd heq (by simp)
      · exact absurd heq (by simp)
  · intro n hmem
    rw [htrace] at hmem
    rcases List.mem_append.mp hmem with hmem | hmem
    · rcases List.mem_append.mp hmem with hmem | hmem
      · simp at hmem
      · by_cases hf : o.fileExists <;> simp [hf] at hmem
    · rcases steadyTr_mem (steadyLoop_tr o fuel 5) _ hmem with
        ⟨p', rows', heq, -⟩ | ⟨n', heq, hle⟩ | ⟨p', heq, -⟩
      · exact absurd heq (by simp)
      · injection heq with ha
        rw [ha]
        exact hle
      · exact absurd heq (by simp)

/-- C2 witness: the trace decomposition at a concrete checkpoint-5 run. -/
theorem resumption_skip_phase_example :
    (fetch_and_write_data oCkptFive 1).1 =
      [Ev.skipAdv 1, Ev.skipAdv 2, Ev.skipAdv 3, Ev.skipAdv 4]
        ++ (if oCkptFive.fileExists then [] else [Ev.writeHeader])
        ++ (steadyLoop oCkptFive 5 1).1 :=
  (resumption_skip_phase oCkptFive 1 rfl rfl (fun _ _ _ => rfl)).1

/-- C1: refuted by the code — the checkpoint written after a page's rows is
the number of that same page, and a restart resumes at `start_page =
checkpoint` (line 76), re-scraping it.  The first run appends page 2's rows
and leaves checkpoint 2; the re-run reads checkpoint 2, skips only page 1,
and appends page 2's identical rows a second time. -/
theorem resume_duplicates_checkpointed_page :
    lastCkpt (fetch_and_write_data oFirstRun 5).1 = some 2
    ∧ (fetch_and_write_data oFirstRun 5).2 = Outcome.finished
    ∧ Ev.append 2 [["P2", "", "", "", "", "", ""]]
        ∈ (fetch_and_write_data oFirstRun 5).1
    ∧ Ev.append 2 [["P2", "", "", "", "", "", ""]]
        ∈ (fetch_and_write_data oSecondRun 5).1 := by
  decide

/-! ## Claim C10 -/

/-- Once one row of a batch is rejected, the whole `writerows` call fails. -/
theorem writeRowsAux_false_of_mem (cols : List String) (r : Rec)
    (e : String) (hrow : dictWriterRow cols r = Except.error e) :
    ∀ rows, r ∈ rows → (writeRowsAux cols rows).2 = false := by
  intro rows
  induction rows with
  | nil => intro h; cases h
  | cons r0 rs ih =>
    intro hr
    rcases List.mem_cons.mp hr with rfl | hr'
    · rw [writeRowsAux, hrow]
    · rw [writeRowsAux]
      cases hd : dictWriterRow cols r0 with
      | error e0 => rfl
      | ok row => simpa using ih hr'

/-- C10: a record holding any key outside the seven fixed columns — such as
a dynamic field whose normalized label is not one of them — makes the
`DictWriter` row conversion raise `ValueError` instead of writing the row,
and the enclosing `writerows` call fail. -/
theorem extra_key_rejected_by_writer (rows : List Rec) (r : Rec)
    (k v : String) (hr : r ∈ rows) (hk : (k, v) ∈ r)
    (hnot : csv_columns.contains k = false) :
    dictWriterRow csv_columns r =
      Except.error "ValueError: dict contains fields not in fieldnames"
    ∧ (writeRowsAux csv_columns rows).2 = false := by
  have hknot : k ∉ csv_columns := by simpa using hnot
  have hany : r.any (fun kv => !(csv_columns.contains kv.1)) = true :=
    List.any_eq_true.mpr ⟨(k, v), hk, by simp [hknot]⟩
  have hrow : dictWriterRow csv_columns r =
      Except.error "ValueError: dict contains fields not in fieldnames" := by
    rw [dictWriterRow, if_pos hany]
  exact ⟨hrow, writeRowsAux_false_of_mem csv_columns r _ hrow rows hr⟩

/-- C10 witness: a record with the extra dynamic key `operator`. -/
theorem extra_key_rejected_by_writer_example :
    dictWriterRow csv_columns [("permit_id", "P"), ("operator", "X")] =
      Except.error "ValueError: dict contains fields not in fieldnames"
    ∧ (writeRowsAux csv_columns [[("permit_id", "P"), ("operator", "X")]]).2
        = false :=
  extra_key_rejected_by_writer [[("permit_id", "P"), ("operator", "X")]]
    [("permit_id", "P"), ("operator", "X")] "operator" "X"
    (by decide) (by decide) (by decide)

end Scraper
